import Mathlib

set_option maxHeartbeats 1000000

/-!
Shallow embedding of the RecipeBox recipe manager
(`models.py`, `storage.py`, `recipes.py`, `shopping_list.py`).

Python strings are modelled as Lean `String`; `str.strip` and
`str.lower` are modelled character-wise with `Char.isWhitespace` and
`Char.toLower` (the ASCII fragment exercised by the program).  The
filesystem visible to `JSONStorage` is modelled as an explicit state
(`FS`): the primary file and the backup file each hold either
malformed bytes or a parsed JSON document, and boolean fault flags say
which of the underlying I/O operations (read, the two copies, the temp
write, the atomic replace) raise `IOError`/`OSError` when attempted.
Exceptions are modelled with `Except PyErr`.
-/

/-- Python `str.lower()`. -/
def pyLower (s : String) : String := ⟨s.data.map Char.toLower⟩

/-- Python `str.strip()`: drop leading and trailing whitespace. -/
def pyStrip (s : String) : String :=
  ⟨((s.data.dropWhile Char.isWhitespace).reverse.dropWhile Char.isWhitespace).reverse⟩

/-- Python `needle in haystack` on strings: substring containment. -/
def pyIn (needle haystack : String) : Bool :=
  haystack.data.tails.any (fun t => needle.data.isPrefixOf t)

/-- `models.Ingredient`. -/
structure Ingredient where
  name : String
  quantity : String
deriving DecidableEq

/-- `models.Recipe` (all fields are always supplied by the embedded code,
so the dataclass defaults are not needed). -/
structure Recipe where
  id : String
  name : String
  ingredients : List Ingredient
  steps : String
  favorite : Bool
  category : Option String
deriving DecidableEq

/-- JSON documents, as produced by `json.load`. -/
inductive Json where
  | null
  | bool (b : Bool)
  | num (n : Int)
  | str (s : String)
  | arr (xs : List Json)
  | obj (fields : List (String × Json))

/-- The Python exceptions the embedded code raises or catches. -/
inductive PyErr where
  | valueError
  | runtimeError
  | ioError
  | keyError
  | typeError
  | attributeError
  | recursionError
  | illTyped
deriving DecidableEq

/-- Python `dict.get(key)` on a JSON object (first binding wins, as in a
Python dict, whose keys are unique). -/
def jget : List (String × Json) → String → Option Json
  | [], _ => none
  | (k, v) :: rest, key => if k = key then some v else jget rest key

/-- The ingredient half of `Recipe.to_dict`:
`{"name": ing.name, "quantity": ing.quantity}`. -/
def Ingredient.to_json (i : Ingredient) : Json :=
  .obj [("name", .str i.name), ("quantity", .str i.quantity)]

/-- `Recipe.to_dict`. -/
def Recipe.to_dict (r : Recipe) : Json :=
  .obj [("id", .str r.id),
        ("name", .str r.name),
        ("ingredients", .arr (r.ingredients.map Ingredient.to_json)),
        ("steps", .str r.steps),
        ("favorite", .bool r.favorite),
        ("category", match r.category with | none => .null | some c => .str c)]

/-- `Ingredient(name=ing["name"], quantity=ing["quantity"])` inside
`Recipe.from_dict`: a missing key raises `KeyError`, indexing a non-dict
raises `TypeError`.  Python stores a non-string value unchecked; the
typed embedding cannot represent that and marks it `illTyped`
(no claim exercises such data). -/
def Ingredient.from_json : Json → Except PyErr Ingredient
  | .obj fields =>
    match jget fields "name", jget fields "quantity" with
    | some (.str n), some (.str q) => .ok ⟨n, q⟩
    | none, _ => .error .keyError
    | _, none => .error .keyError
    | _, _ => .error .illTyped
  | _ => .error .typeError

/-- `Recipe.from_dict(data)`.  `freshId` stands for the `str(uuid4())`
generated when `"id"` is absent.  Calling `.get` on a non-dict raises
`AttributeError` (which `load_recipes` does not catch).  As above,
non-string/bool values in typed fields are marked `illTyped`. -/
def Recipe.from_dict (freshId : String) : Json → Except PyErr Recipe
  | .obj fields => do
    let ingJs ← match jget fields "ingredients" with
      | none => pure []
      | some (.arr xs) => pure xs
      | some _ => throw PyErr.typeError
    let ings ← ingJs.mapM Ingredient.from_json
    let rid ← match jget fields "id" with
      | none => pure freshId
      | some (.str s) => pure s
      | some _ => throw PyErr.illTyped
    let rname ← match jget fields "name" with
      | none => pure ""
      | some (.str s) => pure s
      | some _ => throw PyErr.illTyped
    let rsteps ← match jget fields "steps" with
      | none => pure ""
      | some (.str s) => pure s
      | some _ => throw PyErr.illTyped
    let rfav ← match jget fields "favorite" with
      | none => pure false
      | some (.bool b) => pure b
      | some _ => throw PyErr.illTyped
    let rcat ← match jget fields "category" with
      | none => pure none
      | some .null => pure none
      | some (.str s) => pure (some s)
      | some _ => throw PyErr.illTyped
    pure { id := rid, name := rname, ingredients := ings,
           steps := rsteps, favorite := rfav, category := rcat }
  | _ => .error .attributeError

-- Round-trip of the entity model: `from_dict (to_dict r)` recovers `r`.

theorem Ingredient.from_json_to_json (i : Ingredient) :
    Ingredient.from_json i.to_json = .ok i := rfl

theorem mapM_loop_from_json_map_to_json (l : List Ingredient) :
    ∀ acc : List Ingredient,
      List.mapM.loop Ingredient.from_json (l.map Ingredient.to_json) acc =
        Except.ok (acc.reverse ++ l) := by
  induction l with
  | nil => intro acc; simp [List.mapM.loop, pure, Except.pure]
  | cons i rest ih =>
    intro acc
    simp only [List.map_cons, List.mapM.loop, Ingredient.from_json_to_json,
      Bind.bind, Except.bind, ih (i :: acc), List.reverse_cons, List.append_assoc,
      List.singleton_append]

theorem mapM_from_json_map_to_json (l : List Ingredient) :
    (l.map Ingredient.to_json).mapM Ingredient.from_json = Except.ok l := by
  simpa [List.mapM] using mapM_loop_from_json_map_to_json l []

theorem Recipe.from_dict_to_dict (freshId : String) (r : Recipe) :
    Recipe.from_dict freshId r.to_dict = .ok r := by
  cases r with
  | mk rid rname rings rsteps rfav rcat =>
    cases rcat <;>
      simp [Recipe.from_dict, Recipe.to_dict, jget,
            mapM_loop_from_json_map_to_json, List.mapM,
            Except.bind, Bind.bind, pure, Except.pure]

/-- A persisted file either failed `json.load` (malformed bytes) or
holds a parsed JSON document. -/
inductive FileData where
  | malformed
  | parsed (j : Json)

/-- The filesystem as seen by `JSONStorage` for one storage path:
the primary file, its `.backup` sibling, and fault flags for the
individual I/O operations (`true` = that operation raises when hit).
The `.tmp` staging file is not tracked: nothing in the program reads
it back. -/
structure FS where
  primary : Option FileData
  backup : Option FileData
  readFails : Bool
  restoreCopyFails : Bool
  backupCopyFails : Bool
  tempWriteFails : Bool
  replaceFails : Bool

/-- The loop inside `JSONStorage.load_recipes` that converts each
record with `Recipe.from_dict`, skipping entries that raise
`KeyError`/`TypeError`; any other exception propagates.  The index
feeds the deterministic model of `uuid4` for records without `"id"`.
(`illTyped` entries — non-string/bool field values the typed model
cannot hold — are also skipped; Python would keep them verbatim, but
no claim reaches such data.) -/
def parse_recipes_list : Nat → List Json → Except PyErr (List Recipe)
  | _, [] => .ok []
  | idx, j :: rest =>
    match Recipe.from_dict ("uuid-" ++ toString idx) j with
    | .ok r => (parse_recipes_list (idx + 1) rest).map (fun rs => r :: rs)
    | .error .keyError => parse_recipes_list (idx + 1) rest
    | .error .typeError => parse_recipes_list (idx + 1) rest
    | .error .illTyped => parse_recipes_list (idx + 1) rest
    | .error e => .error e

/-- Outcome of the shape dispatch in `load_recipes`: a dict with a
`"recipes"` list or a bare list gives the records; any other document
shape returns `[]`; a non-iterable `"recipes"` value raises
`TypeError` when iterated. -/
inductive RecipesData where
  | list (xs : List Json)
  | invalidFormat
  | notIterable

/-- The `isinstance` dispatch of `JSONStorage.load_recipes`. -/
def getRecipesData : Json → RecipesData
  | .obj fields =>
    match jget fields "recipes" with
    | some (.arr xs) => .list xs
    | some _ => .notIterable
    | none => .invalidFormat
  | .arr xs => .list xs
  | _ => .invalidFormat

/-- `JSONStorage.load_recipes`.  The corrupted-JSON branch copies the
backup over the primary file and calls itself again; `fuel` models the
Python recursion limit (exhaustion raises `RecursionError`, which the
`except Exception` around the retry converts into `[]`).  An `IOError`
while reading is re-raised; every path of the corrupted-JSON branch is
wrapped so that it returns normally. -/
def load_recipes : Nat → FS → Except PyErr (List Recipe) × FS
  | 0, fs => (.error .recursionError, fs)
  | fuel + 1, fs =>
    match fs.primary with
    | none => (.ok [], fs)
    | some content =>
      if fs.readFails then (.error .ioError, fs)
      else
        match content with
        | .parsed j =>
          match getRecipesData j with
          | .list xs => (parse_recipes_list 0 xs, fs)
          | .invalidFormat => (.ok [], fs)
          | .notIterable => (.error .typeError, fs)
        | .malformed =>
          match fs.backup with
          | none => (.ok [], fs)
          | some _ =>
            if fs.restoreCopyFails then (.ok [], fs)
            else
              match load_recipes fuel { fs with primary := fs.backup } with
              | (.ok rs, fs2) => (.ok rs, fs2)
              | (.error _, fs2) => (.ok [], fs2)

/-- The document `json.dump` writes in `save_recipes`. -/
def serializeRecipes (recipes : List Recipe) : Json :=
  .arr (recipes.map Recipe.to_dict)

/-- `JSONStorage.save_recipes`.  Backup copy failure is non-fatal; a
failure of the temp write or of the atomic replace raises `IOError`
(both are `OSError`s, so the generic `except Exception`
restore-from-backup branch is not reached for them — the `except
IOError` clause re-raises first). -/
def save_recipes_fs (recipes : List Recipe) (fs : FS) : Except PyErr Unit × FS :=
  let fs1 :=
    match fs.primary with
    | some _ => if fs.backupCopyFails then fs else { fs with backup := fs.primary }
    | none => fs
  if fs1.tempWriteFails then (.error .ioError, fs1)
  else if fs1.replaceFails then (.error .ioError, fs1)
  else (.ok (), { fs1 with primary := some (.parsed (serializeRecipes recipes)) })

/-- `RecipeManager`'s state: the in-memory collection plus the
filesystem its `JSONStorage` works on. -/
structure Manager where
  recipes : List Recipe
  fs : FS

/-- `RecipeManager._load_recipes` at construction: any exception from
storage is caught, printed, and replaced by an empty collection. -/
def manager_load (fuel : Nat) (fs : FS) : Manager :=
  match load_recipes fuel fs with
  | (.ok rs, fs2) => { recipes := rs, fs := fs2 }
  | (.error _, fs2) => { recipes := [], fs := fs2 }

/-- `RecipeManager._save_recipes`: any exception from
`storage.save_recipes` becomes a `RuntimeError`. -/
def mgr_save (m : Manager) : Except PyErr Unit × Manager :=
  match save_recipes_fs m.recipes m.fs with
  | (.ok _, fs2) => (.ok (), { m with fs := fs2 })
  | (.error _, fs2) => (.error .runtimeError, { m with fs := fs2 })

/-- `category.strip() if category else None` (both `None` and `""` are
falsy). -/
def stripOrNone : Option String → Option String
  | none => none
  | some s => if s = "" then none else some (pyStrip s)

/-- `RecipeManager.add_recipe`.  `freshId` stands for the generated
`uuid4` id. -/
def add_recipe (m : Manager) (freshId recipeName : String)
    (ingredients : List Ingredient) (steps : String)
    (favorite : Bool) (category : Option String) :
    Except PyErr Recipe × Manager :=
  if recipeName = "" ∨ pyStrip recipeName = "" then (.error .valueError, m)
  else
    let recipe : Recipe :=
      { id := freshId, name := pyStrip recipeName, ingredients := ingredients,
        steps := steps, favorite := favorite, category := stripOrNone category }
    let m1 := { m with recipes := m.recipes ++ [recipe] }
    match mgr_save m1 with
    | (.ok _, m2) => (.ok recipe, m2)
    | (.error e, m2) => (.error e, m2)

/-- `RecipeManager.get_recipe_by_id`: first match in a linear scan. -/
def get_recipe_by_id : List Recipe → String → Option Recipe
  | [], _ => none
  | r :: rest, rid => if r.id = rid then some r else get_recipe_by_id rest rid

/-- `RecipeManager.search_recipes`'s loop: append on a name match and
`continue`; otherwise append on the first ingredient match and
`break`. -/
def search_go (term : String) : List Recipe → List Recipe
  | [] => []
  | r :: rest =>
    if pyIn term (pyLower r.name) then r :: search_go term rest
    else if r.ingredients.any (fun i => pyIn term (pyLower i.name)) then
      r :: search_go term rest
    else search_go term rest

/-- `RecipeManager.search_recipes`: an empty (falsy) term returns `[]`;
otherwise the term is lowercased and stripped before matching. -/
def search_recipes (recipes : List Recipe) (search_term : String) : List Recipe :=
  if search_term = "" then []
  else search_go (pyStrip (pyLower search_term)) recipes

/-- In-place field mutation of the first recipe with the given id (the
object returned by `get_recipe_by_id` aliases the list entry). -/
def updateFirst (f : Recipe → Recipe) : List Recipe → String → List Recipe
  | [], _ => []
  | r :: rest, rid =>
    if r.id = rid then f r :: rest else r :: updateFirst f rest rid

/-- `recipe.favorite = not recipe.favorite`. -/
def flipFav (x : Recipe) : Recipe := { x with favorite := !x.favorite }

/-- `RecipeManager.toggle_favorite`: not found raises `ValueError`;
otherwise the flag is flipped in memory, then saved, and the new value
returned. -/
def toggle_favorite (m : Manager) (rid : String) : Except PyErr Bool × Manager :=
  match get_recipe_by_id m.recipes rid with
  | none => (.error .valueError, m)
  | some r =>
    let m1 := { m with recipes := updateFirst flipFav m.recipes rid }
    match mgr_save m1 with
    | (.ok _, m2) => (.ok (!r.favorite), m2)
    | (.error e, m2) => (.error e, m2)

/-- The field assignments of `RecipeManager.update_recipe` (applied
only to provided arguments; `None` means "not provided"). -/
def apply_update (r : Recipe) (nameArg : Option String)
    (ingredientsArg : Option (List Ingredient)) (stepsArg : Option String)
    (favoriteArg : Option Bool) (categoryArg : Option String) : Recipe :=
  { r with
    name := match nameArg with | some n => pyStrip n | none => r.name
    ingredients := ingredientsArg.getD r.ingredients
    steps := stepsArg.getD r.steps
    favorite := favoriteArg.getD r.favorite
    category := match categoryArg with
      | some c => if c = "" then none else some (pyStrip c)
      | none => r.category }

/-- `RecipeManager.update_recipe`: not found raises `ValueError`; a
provided-but-blank name raises `ValueError` before any field is
assigned; otherwise the fields are mutated in memory, then saved. -/
def update_recipe (m : Manager) (rid : String) (nameArg : Option String)
    (ingredientsArg : Option (List Ingredient)) (stepsArg : Option String)
    (favoriteArg : Option Bool) (categoryArg : Option String) :
    Except PyErr Recipe × Manager :=
  match get_recipe_by_id m.recipes rid with
  | none => (.error .valueError, m)
  | some r =>
    if nameArg.any (fun n => pyStrip n == "") then
      (.error .valueError, m)
    else
      let r2 := apply_update r nameArg ingredientsArg stepsArg favoriteArg categoryArg
      let m1 := { m with recipes := updateFirst (fun _ => r2) m.recipes rid }
      match mgr_save m1 with
      | (.ok _, m2) => (.ok r2, m2)
      | (.error e, m2) => (.error e, m2)

/-- The `del self._recipes[i]` of `delete_recipe`: remove the first
recipe with the given id, or `none` when the loop finds no match. -/
def removeFirst : List Recipe → String → Option (List Recipe)
  | [], _ => none
  | r :: rest, rid =>
    if r.id = rid then some rest
    else (removeFirst rest rid).map (fun l => r :: l)

/-- `RecipeManager.delete_recipe`: returns `False` without saving when
the id does not resolve; otherwise deletes in memory, saves, and
returns `True`. -/
def delete_recipe (m : Manager) (rid : String) : Except PyErr Bool × Manager :=
  match removeFirst m.recipes rid with
  | none => (.ok false, m)
  | some rs =>
    let m1 := { m with recipes := rs }
    match mgr_save m1 with
    | (.ok _, m2) => (.ok true, m2)
    | (.error e, m2) => (.error e, m2)

/-- One `shopping_list[key].append(quantity)` step, with
`if key not in shopping_list: shopping_list[key] = []` first: append
to the existing binding of the key (dict keys are unique, so the first
binding is the binding), or create a new binding at the end. -/
def addQty : List (String × List String) → String → String → List (String × List String)
  | [], key, q => [(key, [q])]
  | (k, qs) :: rest, key, q =>
    if k = key then (k, qs ++ [q]) :: rest else (k, qs) :: addQty rest key q

/-- Dictionary lookup on the insertion-ordered model of a Python dict. -/
def slLookup (sl : List (String × List String)) (key : String) : Option (List String) :=
  match sl with
  | [] => none
  | (k, qs) :: rest => if k = key then some qs else slLookup rest key

namespace ShoppingListGenerator

/-- `ShoppingListGenerator._normalize_ingredient_name`:
`name.lower().strip()`. -/
def normalize_ingredient_name (ingName : String) : String := pyStrip (pyLower ingName)

/-- `ShoppingListGenerator.generate`: nested loop over recipes and
their ingredients, appending each quantity under the normalized name. -/
def generate (recipes : List Recipe) : List (String × List String) :=
  recipes.foldl
    (fun sl r =>
      r.ingredients.foldl
        (fun sl ing => addQty sl (normalize_ingredient_name ing.name) ing.quantity) sl)
    []

end ShoppingListGenerator

/-- `RecipeManager.generate_shopping_list`: ids that do not resolve are
skipped; quantities are appended under the raw (unnormalized)
ingredient name. -/
def generate_shopping_list (recipes : List Recipe) (recipe_ids : List String) :
    List (String × List String) :=
  recipe_ids.foldl
    (fun sl rid =>
      match get_recipe_by_id recipes rid with
      | none => sl
      | some r => r.ingredients.foldl (fun sl ing => addQty sl ing.name ing.quantity) sl)
    []

/-! ### Lemmas about search -/

/-- The empty needle is a substring of every string. -/
theorem pyIn_empty (s : String) : pyIn "" s = true := by
  cases h : s.data with
  | nil => simp [pyIn, h]
  | cons c rest => simp [pyIn, h, List.isPrefixOf]

/-- Matching predicate extracted from the body of the search loop. -/
def recipe_matches (term : String) (r : Recipe) : Bool :=
  pyIn term (pyLower r.name) || r.ingredients.any (fun i => pyIn term (pyLower i.name))

theorem search_go_eq_filter (term : String) (recipes : List Recipe) :
    search_go term recipes = recipes.filter (recipe_matches term) := by
  induction recipes with
  | nil => rfl
  | cons r rest ih =>
    by_cases h1 : pyIn term (pyLower r.name) = true
    · simp [search_go, List.filter_cons, recipe_matches, h1, ih]
    · by_cases h2 : (r.ingredients.any (fun i => pyIn term (pyLower i.name))) = true
      · simp [search_go, List.filter_cons, recipe_matches, h1, h2, ih]
      · simp [search_go, List.filter_cons, recipe_matches, h1, h2, ih]

theorem search_go_empty_term (recipes : List Recipe) :
    search_go "" recipes = recipes := by
  induction recipes with
  | nil => rfl
  | cons r rest ih => simp [search_go, pyIn_empty, ih]

/-- `Char.toLower` fixes the whitespace characters. -/
theorem toLower_whitespace (c : Char) (h : c.isWhitespace = true) : c.toLower = c := by
  simp only [Char.isWhitespace, Bool.or_eq_true, decide_eq_true_eq] at h
  rcases h with ((rfl | rfl) | rfl) | rfl <;> decide

theorem pyStrip_all_whitespace (l : List Char) (h : ∀ c ∈ l, c.isWhitespace = true) :
    pyStrip ⟨l⟩ = "" := by
  have hd : l.dropWhile Char.isWhitespace = [] := List.dropWhile_eq_nil_iff.mpr h
  simp [pyStrip, hd]

/-- C9: a non-empty, all-whitespace search term is stripped to the
empty string after the emptiness check, and the empty needle matches
every recipe name, so the whole collection is returned in order. -/
theorem C9_whitespace_term_returns_all (recipes : List Recipe) (t : String)
    (h1 : t ≠ "") (h2 : ∀ c ∈ t.data, c.isWhitespace = true) :
    search_recipes recipes t = recipes := by
  have hl : ∀ c ∈ (pyLower t).data, c.isWhitespace = true := by
    intro c hc
    simp only [pyLower, List.mem_map] at hc
    obtain ⟨a, ha, rfl⟩ := hc
    rw [toLower_whitespace a (h2 a ha)]
    exact h2 a ha
  have hstrip : pyStrip (pyLower t) = "" := pyStrip_all_whitespace (pyLower t).data hl
  rw [search_recipes, if_neg h1, hstrip, search_go_empty_term]

theorem C9_whitespace_term_returns_all_witness :
    search_recipes [⟨"1", "Pasta", [], "", false, none⟩] "   " =
      [⟨"1", "Pasta", [], "", false, none⟩] :=
  C9_whitespace_term_returns_all _ "   " (by decide) (by decide)

/-- C7 counterexample: for the term `" q"` and a recipe named `"q"`
with no ingredients, the code returns the recipe although `" q"` is
not a case-insensitive substring of the name (the code strips the term
first), so search is not the substring match of the term as claimed. -/
theorem C7_counterexample :
    search_recipes [⟨"1", "q", [], "", false, none⟩] " q" =
        [⟨"1", "q", [], "", false, none⟩] ∧
      pyIn (pyLower " q") (pyLower "q") = false ∧
      (⟨"1", "q", [], "", false, none⟩ : Recipe).ingredients = [] := by
  refine ⟨by decide, by decide, rfl⟩

/-- C7 amended: `search_recipes ""` is empty; for a non-empty term the
result is the collection filtered — in order and with each occurrence
kept at most once — by a case-insensitive substring match of the
*lowercased and stripped* term against the recipe name or any
ingredient name. -/
theorem C7_search_amended (recipes : List Recipe) (t : String) (r : Recipe)
    (ht : t ≠ "") :
    search_recipes recipes "" = [] ∧
    (search_recipes recipes t).Sublist recipes ∧
    (r ∈ search_recipes recipes t ↔ r ∈ recipes ∧
      (pyIn (pyStrip (pyLower t)) (pyLower r.name) = true ∨
       ∃ i ∈ r.ingredients, pyIn (pyStrip (pyLower t)) (pyLower i.name) = true)) := by
  refine ⟨rfl, ?_, ?_⟩
  · rw [search_recipes, if_neg ht, search_go_eq_filter]
    exact List.filter_sublist recipes
  · rw [search_recipes, if_neg ht, search_go_eq_filter]
    rw [List.mem_filter]
    constructor
    · rintro ⟨hmem, hp⟩
      refine ⟨hmem, ?_⟩
      simpa [recipe_matches, List.any_eq_true] using hp
    · rintro ⟨hmem, hp⟩
      refine ⟨hmem, ?_⟩
      simpa [recipe_matches, List.any_eq_true] using hp

theorem C7_search_amended_witness :
    search_recipes [⟨"1", "q", [], "", false, none⟩] "Q" =
        [⟨"1", "q", [], "", false, none⟩] ∧
      ((⟨"1", "q", [], "", false, none⟩ : Recipe) ∈
          search_recipes [⟨"1", "q", [], "", false, none⟩] "Q" ↔
        (⟨"1", "q", [], "", false, none⟩ : Recipe) ∈
            [(⟨"1", "q", [], "", false, none⟩ : Recipe)] ∧
          (pyIn (pyStrip (pyLower "Q")) (pyLower "q") = true ∨
           ∃ i ∈ ([] : List Ingredient), pyIn (pyStrip (pyLower "Q")) (pyLower i.name) = true)) :=
  ⟨by decide,
   (C7_search_amended [⟨"1", "q", [], "", false, none⟩] "Q"
      ⟨"1", "q", [], "", false, none⟩ (by decide)).2.2⟩

/-! ### Lemmas about shopping-list aggregation -/

/-- Folding `addQty` over a list of ingredients with an arbitrary key
function — the common shape of `ShoppingListGenerator.generate` (key =
normalized name) and `RecipeManager.generate_shopping_list` (key = raw
name). -/
def aggBy (keyOf : Ingredient → String) (sl : List (String × List String))
    (ings : List Ingredient) : List (String × List String) :=
  ings.foldl (fun sl i => addQty sl (keyOf i) i.quantity) sl

theorem slLookup_addQty (sl : List (String × List String)) (key q key2 : String) :
    slLookup (addQty sl key q) key2 =
      if key = key2 then some ((slLookup sl key2).getD [] ++ [q])
      else slLookup sl key2 := by
  induction sl with
  | nil =>
    by_cases h : key = key2 <;> simp [addQty, slLookup, h]
  | cons p rest ih =>
    obtain ⟨k, qs⟩ := p
    by_cases hk : k = key
    · subst hk
      by_cases h2 : k = key2
      · subst h2
        simp [addQty, slLookup]
      · simp [addQty, slLookup, h2, Ne.symm h2]
    · by_cases h2 : k = key2
      · subst h2
        have hne : ¬ key = k := fun h => hk h.symm
        simp [addQty, slLookup, hk, hne]
      · simp [addQty, slLookup, hk, h2, ih]

theorem slLookup_aggBy (keyOf : Ingredient → String) (ings : List Ingredient) :
    ∀ (sl : List (String × List String)) (key : String),
      slLookup (aggBy keyOf sl ings) key =
        if ings.filterMap (fun i => if keyOf i = key then some i.quantity else none) = []
        then slLookup sl key
        else some ((slLookup sl key).getD [] ++
          ings.filterMap (fun i => if keyOf i = key then some i.quantity else none)) := by
  induction ings with
  | nil => intro sl key; simp [aggBy]
  | cons i rest ih =>
    intro sl key
    have hstep : aggBy keyOf sl (i :: rest) =
        aggBy keyOf (addQty sl (keyOf i) i.quantity) rest := rfl
    rw [hstep, ih]
    have hlook := slLookup_addQty sl (keyOf i) i.quantity key
    by_cases hk : keyOf i = key
    · rw [if_pos hk] at hlook
      rw [hlook]
      have hfc : (i :: rest).filterMap
            (fun j => if keyOf j = key then some j.quantity else none) =
          i.quantity :: rest.filterMap
            (fun j => if keyOf j = key then some j.quantity else none) := by
        simp [List.filterMap_cons, hk]
      rw [hfc]
      by_cases hc : rest.filterMap
          (fun j => if keyOf j = key then some j.quantity else none) = []
      · rw [hc]
        simp
      · rw [if_neg hc, if_neg (List.cons_ne_nil _ _)]
        simp [List.append_assoc]
    · rw [if_neg hk] at hlook
      rw [hlook]
      have hfc : (i :: rest).filterMap
            (fun j => if keyOf j = key then some j.quantity else none) =
          rest.filterMap
            (fun j => if keyOf j = key then some j.quantity else none) := by
        simp [List.filterMap_cons, hk]
      rw [hfc]

theorem aggBy_append (keyOf : Ingredient → String)
    (sl : List (String × List String)) (a b : List Ingredient) :
    aggBy keyOf sl (a ++ b) = aggBy keyOf (aggBy keyOf sl a) b := by
  simp [aggBy, List.foldl_append]

theorem generate_eq_aggBy (recipes : List Recipe) :
    ∀ sl, recipes.foldl
        (fun sl r => r.ingredients.foldl
          (fun sl ing =>
            addQty sl (ShoppingListGenerator.normalize_ingredient_name ing.name)
              ing.quantity) sl) sl =
      aggBy (fun i => ShoppingListGenerator.normalize_ingredient_name i.name) sl
        (recipes.flatMap (fun r => r.ingredients)) := by
  induction recipes with
  | nil => intro sl; rfl
  | cons r rest ih =>
    intro sl
    rw [List.foldl_cons, List.flatMap_cons, aggBy_append]
    exact ih _

/-- C6: `ShoppingListGenerator.generate` maps each lowercased-and-
trimmed ingredient name to exactly the quantity strings of the
ingredients bearing that normalized name, verbatim and in the order
the recipes and their ingredients were supplied (no key is present
without a contribution). -/
theorem C6_generate_aggregates_normalized (recipes : List Recipe) (key : String) :
    slLookup (ShoppingListGenerator.generate recipes) key =
      (let c := (recipes.flatMap (fun r => r.ingredients)).filterMap
         (fun i => if pyStrip (pyLower i.name) = key then some i.quantity else none);
       if c = [] then none else some c) := by
  have h1 : ShoppingListGenerator.generate recipes =
      aggBy (fun i => ShoppingListGenerator.normalize_ingredient_name i.name) []
        (recipes.flatMap (fun r => r.ingredients)) :=
    generate_eq_aggBy recipes []
  rw [h1, slLookup_aggBy]
  simp [slLookup, ShoppingListGenerator.normalize_ingredient_name]

theorem mgr_shopping_fold_eq_aggBy (recipes : List Recipe) (ids : List String) :
    ∀ sl, ids.foldl
        (fun sl rid =>
          match get_recipe_by_id recipes rid with
          | none => sl
          | some r => r.ingredients.foldl
              (fun sl ing => addQty sl ing.name ing.quantity) sl) sl =
      aggBy (fun i => i.name) sl
        ((ids.filterMap (get_recipe_by_id recipes)).flatMap (fun r => r.ingredients)) := by
  induction ids with
  | nil => intro sl; rfl
  | cons rid rest ih =>
    intro sl
    rw [List.foldl_cons, List.filterMap_cons]
    cases h : get_recipe_by_id recipes rid with
    | none => simpa [h] using ih sl
    | some r =>
      simp only [h, List.flatMap_cons, aggBy_append]
      exact ih _

/-- C10: `RecipeManager.generate_shopping_list` silently drops ids
that do not resolve (only the resolved recipes contribute), aggregates
under the *raw* ingredient name, and is therefore not equivalent to
`ShoppingListGenerator.generate` over the resolved recipes: with
ingredients `("Tomato", "2")` and `(" tomato ", "3")` it produces two
distinct keys where the generator produces the single normalized key
`"tomato"`. -/
theorem C10_manager_shopping_list_raw_keys :
    (∀ (recipes : List Recipe) (ids : List String) (key : String),
      slLookup (generate_shopping_list recipes ids) key =
        (let c := ((ids.filterMap (get_recipe_by_id recipes)).flatMap
            (fun r => r.ingredients)).filterMap
            (fun i => if i.name = key then some i.quantity else none);
         if c = [] then none else some c)) ∧
    generate_shopping_list
        [⟨"r1", "Salad", [⟨"Tomato", "2"⟩, ⟨" tomato ", "3"⟩], "", false, none⟩]
        ["r1", "zzz"] =
      [("Tomato", ["2"]), (" tomato ", ["3"])] ∧
    ShoppingListGenerator.generate
        [⟨"r1", "Salad", [⟨"Tomato", "2"⟩, ⟨" tomato ", "3"⟩], "", false, none⟩] =
      [("tomato", ["2", "3"])] ∧
    generate_shopping_list
        [⟨"r1", "Salad", [⟨"Tomato", "2"⟩, ⟨" tomato ", "3"⟩], "", false, none⟩]
        ["r1", "zzz"] ≠
      ShoppingListGenerator.generate
        [⟨"r1", "Salad", [⟨"Tomato", "2"⟩, ⟨" tomato ", "3"⟩], "", false, none⟩] := by
  refine ⟨?_, by decide, by decide, by decide⟩
  intro recipes ids key
  have h1 : generate_shopping_list recipes ids =
      aggBy (fun i => i.name) []
        ((ids.filterMap (get_recipe_by_id recipes)).flatMap (fun r => r.ingredients)) :=
    mgr_shopping_fold_eq_aggBy recipes ids []
  rw [h1, slLookup_aggBy]
  simp [slLookup]

/-! ### Lemmas about saving and the mutating manager operations -/

theorem save_fs_ok (recipes : List Recipe) (fs : FS)
    (h1 : fs.tempWriteFails = false) (h2 : fs.replaceFails = false) :
    (save_recipes_fs recipes fs).1 = .ok () ∧
    (save_recipes_fs recipes fs).2.primary = some (.parsed (serializeRecipes recipes)) ∧
    (save_recipes_fs recipes fs).2.readFails = fs.readFails ∧
    (save_recipes_fs recipes fs).2.tempWriteFails = false ∧
    (save_recipes_fs recipes fs).2.replaceFails = false := by
  cases hp : fs.primary <;> by_cases hb : fs.backupCopyFails <;>
    simp [save_recipes_fs, hp, hb, h1, h2]

theorem save_fs_fail (recipes : List Recipe) (fs : FS)
    (h1 : fs.tempWriteFails = true) :
    (save_recipes_fs recipes fs).1 = .error .ioError := by
  cases hp : fs.primary <;> by_cases hb : fs.backupCopyFails <;>
    simp [save_recipes_fs, hp, hb, h1]

theorem mgr_save_ok (m : Manager) (h1 : m.fs.tempWriteFails = false)
    (h2 : m.fs.replaceFails = false) :
    (mgr_save m).1 = .ok () ∧
    (mgr_save m).2.recipes = m.recipes ∧
    (mgr_save m).2.fs.tempWriteFails = false ∧
    (mgr_save m).2.fs.replaceFails = false := by
  obtain ⟨ho, _, _, h4, h5⟩ := save_fs_ok m.recipes m.fs h1 h2
  unfold mgr_save
  cases hs : save_recipes_fs m.recipes m.fs with
  | mk res fs2 =>
    rw [hs] at ho h4 h5
    cases res with
    | ok u => cases u; exact ⟨rfl, rfl, h4, h5⟩
    | error e => simp at ho

theorem mgr_save_fail (m : Manager) (h1 : m.fs.tempWriteFails = true) :
    (mgr_save m).1 = .error .runtimeError ∧
    (mgr_save m).2.recipes = m.recipes := by
  have ho := save_fs_fail m.recipes m.fs h1
  unfold mgr_save
  cases hs : save_recipes_fs m.recipes m.fs with
  | mk res fs2 =>
    rw [hs] at ho
    cases res with
    | ok u => simp at ho
    | error e => exact ⟨rfl, rfl⟩

theorem get_updateFirst (f : Recipe → Recipe) (rs : List Recipe) (rid : String)
    (r : Recipe) (h : get_recipe_by_id rs rid = some r) (hid : (f r).id = r.id) :
    get_recipe_by_id (updateFirst f rs rid) rid = some (f r) := by
  induction rs with
  | nil => simp [get_recipe_by_id] at h
  | cons a rest ih =>
    by_cases ha : a.id = rid
    · rw [get_recipe_by_id, if_pos ha] at h
      injection h with h
      subst h
      rw [updateFirst, if_pos ha, get_recipe_by_id, if_pos (hid.trans ha)]
    · rw [get_recipe_by_id, if_neg ha] at h
      rw [updateFirst, if_neg ha, get_recipe_by_id, if_neg ha]
      exact ih h

theorem updateFirst_toggle_toggle (rs : List Recipe) (rid : String) :
    updateFirst flipFav (updateFirst flipFav rs rid) rid = rs := by
  induction rs with
  | nil => rfl
  | cons a rest ih =>
    obtain ⟨aid, anm, aings, ast, afav, acat⟩ := a
    by_cases ha : aid = rid
    · simp [updateFirst, flipFav, ha, Bool.not_not]
    · simp [updateFirst, ha, ih]

theorem removeFirst_none_iff (rs : List Recipe) (rid : String) :
    removeFirst rs rid = none ↔ get_recipe_by_id rs rid = none := by
  induction rs with
  | nil => simp [removeFirst, get_recipe_by_id]
  | cons a rest ih =>
    by_cases ha : a.id = rid <;>
      simp [removeFirst, get_recipe_by_id, ha, ih, Option.map_eq_none']

/-- C8: on a resolving id (and a healthy filesystem) `toggle_favorite`
returns the flipped flag, a second call returns the original flag and
restores the collection exactly, and on a non-resolving id it raises a
not-found `ValueError` leaving the state untouched. -/
theorem C8_toggle_favorite_involution (m : Manager) (rid : String) (r : Recipe)
    (h1 : m.fs.tempWriteFails = false) (h2 : m.fs.replaceFails = false)
    (hr : get_recipe_by_id m.recipes rid = some r) :
    (toggle_favorite m rid).1 = .ok (!r.favorite) ∧
    (toggle_favorite (toggle_favorite m rid).2 rid).1 = .ok r.favorite ∧
    (toggle_favorite (toggle_favorite m rid).2 rid).2.recipes = m.recipes ∧
    (∀ (m2 : Manager) (rid2 : String), get_recipe_by_id m2.recipes rid2 = none →
      toggle_favorite m2 rid2 = (.error .valueError, m2)) := by
  have hnotfound : ∀ (m2 : Manager) (rid2 : String),
      get_recipe_by_id m2.recipes rid2 = none →
      toggle_favorite m2 rid2 = (.error .valueError, m2) := by
    intro m2 rid2 h
    rw [toggle_favorite, h]
  obtain ⟨ho1, hrec1, ht1, hp1⟩ :=
    mgr_save_ok { m with recipes := updateFirst flipFav m.recipes rid } h1 h2
  have hstep1 : toggle_favorite m rid = (.ok (!r.favorite),
      (mgr_save { m with recipes := updateFirst flipFav m.recipes rid }).2) := by
    cases hs : mgr_save { m with recipes := updateFirst flipFav m.recipes rid } with
    | mk res m2 =>
      rw [hs] at ho1
      cases res with
      | ok u =>
        cases u
        simp [toggle_favorite, hr, hs]
      | error e => simp at ho1
  have hrec2 : (mgr_save { m with
      recipes := updateFirst flipFav m.recipes rid }).2.recipes =
      updateFirst flipFav m.recipes rid := hrec1
  have hr2 : get_recipe_by_id (mgr_save { m with
      recipes := updateFirst flipFav m.recipes rid }).2.recipes rid =
      some (flipFav r) := by
    rw [hrec2]
    exact get_updateFirst _ m.recipes rid r hr rfl
  obtain ⟨ho2, hrecB, ht2, hp2⟩ := mgr_save_ok
    { (mgr_save { m with recipes := updateFirst flipFav m.recipes rid }).2 with
      recipes := updateFirst flipFav
        (mgr_save { m with
          recipes := updateFirst flipFav m.recipes rid }).2.recipes rid } ht1 hp1
  have hstep2 : toggle_favorite
      (mgr_save { m with recipes := updateFirst flipFav m.recipes rid }).2 rid =
      (.ok (!(flipFav r).favorite), (mgr_save
        { (mgr_save { m with recipes := updateFirst flipFav m.recipes rid }).2 with
          recipes := updateFirst flipFav
            (mgr_save { m with
              recipes := updateFirst flipFav m.recipes rid }).2.recipes rid }).2) := by
    cases hs : mgr_save
        { (mgr_save { m with recipes := updateFirst flipFav m.recipes rid }).2 with
          recipes := updateFirst flipFav
            (mgr_save { m with
              recipes := updateFirst flipFav m.recipes rid }).2.recipes rid } with
    | mk res m3 =>
      rw [hs] at ho2
      cases res with
      | ok u =>
        cases u
        simp [toggle_favorite, hr2, hs]
      | error e => simp at ho2
  refine ⟨by rw [hstep1], ?_, ?_, hnotfound⟩
  · simp only [hstep1, hstep2, flipFav, Bool.not_not]
  · simp only [hstep1, hstep2]
    rw [hrecB]
    simp only [hrec2]
    exact updateFirst_toggle_toggle m.recipes rid

theorem C8_toggle_favorite_involution_witness :
    (toggle_favorite ⟨[⟨"1", "q", [], "", false, none⟩],
        ⟨none, none, false, false, false, false, false⟩⟩ "1").1 = .ok true ∧
    (toggle_favorite (toggle_favorite ⟨[⟨"1", "q", [], "", false, none⟩],
        ⟨none, none, false, false, false, false, false⟩⟩ "1").2 "1").2.recipes =
      [⟨"1", "q", [], "", false, none⟩] := by
  have h := C8_toggle_favorite_involution
    ⟨[⟨"1", "q", [], "", false, none⟩], ⟨none, none, false, false, false, false, false⟩⟩
    "1" ⟨"1", "q", [], "", false, none⟩ rfl rfl (by decide)
  exact ⟨h.1, h.2.2.1⟩
/-- C1 counterexample: with a filesystem whose temp-file write fails,
`add_recipe` on an initially empty manager raises (a `RuntimeError`
wrapping the save failure) yet leaves the new recipe in the in-memory
collection — the collection is NOT unchanged from the caller's
perspective. -/
theorem C1_counterexample :
    (add_recipe ⟨[], ⟨none, none, false, false, false, true, false⟩⟩
        "id1" "Pasta" [] "" false none).1 = .error .runtimeError ∧
    (add_recipe ⟨[], ⟨none, none, false, false, false, true, false⟩⟩
        "id1" "Pasta" [] "" false none).2.recipes =
      [⟨"id1", "Pasta", [], "", false, none⟩] ∧
    ([⟨"id1", "Pasta", [], "", false, none⟩] : List Recipe) ≠ [] := by
  exact ⟨rfl, by decide, by decide⟩

/-- C1 amended: validation and not-found failures leave the in-memory
collection unchanged, but a storage save failure raises a
`RuntimeError` *after* the mutation has been applied in memory: the
collection the caller then observes is the mutated one (appended,
flipped, updated, or shrunk), not the pre-call one. -/
theorem C1_mutation_failure_semantics (m : Manager) (freshId nm : String)
    (ings : List Ingredient) (steps : String) (fav : Bool) (cat : Option String)
    (rid : String) (nameArg : Option String) (ingsArg : Option (List Ingredient))
    (stepsArg : Option String) (favArg : Option Bool) (catArg : Option String) :
    (pyStrip nm = "" →
      add_recipe m freshId nm ings steps fav cat = (.error .valueError, m)) ∧
    (get_recipe_by_id m.recipes rid = none →
      toggle_favorite m rid = (.error .valueError, m) ∧
      update_recipe m rid nameArg ingsArg stepsArg favArg catArg =
        (.error .valueError, m) ∧
      delete_recipe m rid = (.ok false, m)) ∧
    (m.fs.tempWriteFails = true →
      (pyStrip nm ≠ "" →
        (add_recipe m freshId nm ings steps fav cat).1 = .error .runtimeError ∧
        (add_recipe m freshId nm ings steps fav cat).2.recipes =
          m.recipes ++ [⟨freshId, pyStrip nm, ings, steps, fav, stripOrNone cat⟩]) ∧
      (∀ r, get_recipe_by_id m.recipes rid = some r →
        (toggle_favorite m rid).1 = .error .runtimeError ∧
        (toggle_favorite m rid).2.recipes = updateFirst flipFav m.recipes rid) ∧
      (∀ r, get_recipe_by_id m.recipes rid = some r →
        (nameArg.any fun n => pyStrip n == "") = false →
        (update_recipe m rid nameArg ingsArg stepsArg favArg catArg).1 =
          .error .runtimeError ∧
        (update_recipe m rid nameArg ingsArg stepsArg favArg catArg).2.recipes =
          updateFirst (fun _ => apply_update r nameArg ingsArg stepsArg favArg catArg)
            m.recipes rid) ∧
      (∀ rs, removeFirst m.recipes rid = some rs →
        (delete_recipe m rid).1 = .error .runtimeError ∧
        (delete_recipe m rid).2.recipes = rs)) := by
  refine ⟨?_, ?_, ?_⟩
  · intro h
    rw [add_recipe, if_pos (Or.inr h)]
  · intro h
    refine ⟨by rw [toggle_favorite, h], by rw [update_recipe, h], ?_⟩
    rw [delete_recipe, (removeFirst_none_iff m.recipes rid).mpr h]
  · intro hT
    refine ⟨?_, ?_, ?_, ?_⟩
    · intro hnm
      have hcond : ¬(nm = "" ∨ pyStrip nm = "") := by
        rintro (rfl | h2)
        · exact hnm rfl
        · exact hnm h2
      obtain ⟨hf1, hf2⟩ := mgr_save_fail { m with
        recipes := m.recipes ++
          [⟨freshId, pyStrip nm, ings, steps, fav, stripOrNone cat⟩] } hT
      cases hs : mgr_save { m with
          recipes := m.recipes ++
            [⟨freshId, pyStrip nm, ings, steps, fav, stripOrNone cat⟩] } with
      | mk res m2 =>
        rw [hs] at hf1 hf2
        cases res with
        | ok u => simp at hf1
        | error e =>
          have he : e = .runtimeError := by simpa using hf1
          subst he
          simp at hf2
          exact ⟨by simp [add_recipe, hcond, hs],
            by simp [add_recipe, hcond, hs, hf2]⟩
    · intro r hr
      obtain ⟨hf1, hf2⟩ := mgr_save_fail { m with
        recipes := updateFirst flipFav m.recipes rid } hT
      cases hs : mgr_save { m with
          recipes := updateFirst flipFav m.recipes rid } with
      | mk res m2 =>
        rw [hs] at hf1 hf2
        cases res with
        | ok u => simp at hf1
        | error e =>
          have he : e = .runtimeError := by simpa using hf1
          subst he
          simp at hf2
          exact ⟨by simp [toggle_favorite, hr, hs],
            by simp [toggle_favorite, hr, hs, hf2]⟩
    · intro r hr hval
      obtain ⟨hf1, hf2⟩ := mgr_save_fail { m with
        recipes := updateFirst
          (fun _ => apply_update r nameArg ingsArg stepsArg favArg catArg)
          m.recipes rid } hT
      cases hs : mgr_save { m with
          recipes := updateFirst
            (fun _ => apply_update r nameArg ingsArg stepsArg favArg catArg)
            m.recipes rid } with
      | mk res m2 =>
        rw [hs] at hf1 hf2
        cases res with
        | ok u => simp at hf1
        | error e =>
          have he : e = .runtimeError := by simpa using hf1
          subst he
          simp at hf2
          exact ⟨by simp [update_recipe, hr, hval, hs],
            by simp [update_recipe, hr, hval, hs, hf2]⟩
    · intro rs hrm
      obtain ⟨hf1, hf2⟩ := mgr_save_fail { m with recipes := rs } hT
      cases hs : mgr_save { m with recipes := rs } with
      | mk res m2 =>
        rw [hs] at hf1 hf2
        cases res with
        | ok u => simp at hf1
        | error e =>
          have he : e = .runtimeError := by simpa using hf1
          subst he
          simp at hf2
          exact ⟨by simp [delete_recipe, hrm, hs],
            by simp [delete_recipe, hrm, hs, hf2]⟩

theorem C1_mutation_failure_semantics_witness :
    add_recipe ⟨[], ⟨none, none, false, false, false, true, false⟩⟩
        "id1" " " [] "" false none =
      (.error .valueError, ⟨[], ⟨none, none, false, false, false, true, false⟩⟩) ∧
    (add_recipe ⟨[], ⟨none, none, false, false, false, true, false⟩⟩
        "id1" "Pasta" [] "" false none).1 = .error .runtimeError ∧
    (add_recipe ⟨[], ⟨none, none, false, false, false, true, false⟩⟩
        "id1" "Pasta" [] "" false none).2.recipes =
      [] ++ [⟨"id1", pyStrip "Pasta", [], "", false, stripOrNone none⟩] := by
  refine ⟨?_, ?_, ?_⟩
  · exact (C1_mutation_failure_semantics
      ⟨[], ⟨none, none, false, false, false, true, false⟩⟩
      "id1" " " [] "" false none "x" none none none none none).1 (by decide)
  · exact (((C1_mutation_failure_semantics
      ⟨[], ⟨none, none, false, false, false, true, false⟩⟩
      "id1" "Pasta" [] "" false none "x" none none none none none).2.2 rfl).1
      (by decide)).1
  · exact (((C1_mutation_failure_semantics
      ⟨[], ⟨none, none, false, false, false, true, false⟩⟩
      "id1" "Pasta" [] "" false none "x" none none none none none).2.2 rfl).1
      (by decide)).2

/-- C4 counterexample: `add_recipe` with the whitespace-only category
`"   "` (truthy in Python) stores `category = ""` — present but empty —
instead of the claimed absent (`None`) category. -/
theorem C4_counterexample :
    (add_recipe ⟨[], ⟨none, none, false, false, false, false, false⟩⟩
        "id1" "Pasta" [] "" false (some "   ")).1 =
      .ok ⟨"id1", "Pasta", [], "", false, some ""⟩ ∧
    (some "" : Option String) ≠ none ∧
    pyStrip "" = "" := by
  exact ⟨rfl, by decide, rfl⟩

/-- C4 amended: an absent (`None`) or empty-string category becomes
absent; any *non-empty* category string — including a whitespace-only
one — is kept trimmed, so a whitespace-only category is stored as the
present-but-empty string `""` rather than becoming absent.  The same
rule applies to `add_recipe` and to `update_recipe`. -/
theorem C4_category_normalization (m : Manager) (freshId nm : String)
    (ings : List Ingredient) (steps : String) (fav : Bool) (cat : Option String)
    (rid : String) (r0 : Recipe)
    (hname : pyStrip nm ≠ "") (h1 : m.fs.tempWriteFails = false)
    (h2 : m.fs.replaceFails = false)
    (hr : get_recipe_by_id m.recipes rid = some r0) :
    ((add_recipe m freshId nm ings steps fav cat).1 =
        .ok ⟨freshId, pyStrip nm, ings, steps, fav, stripOrNone cat⟩ ∧
      (stripOrNone cat = none ↔ cat = none ∨ cat = some "") ∧
      (∀ s, cat = some s → s ≠ "" → stripOrNone cat = some (pyStrip s))) ∧
    ((update_recipe m rid none none none none cat).1 =
        .ok (apply_update r0 none none none none cat) ∧
      (cat = none → (apply_update r0 none none none none cat).category = r0.category) ∧
      (cat = some "" → (apply_update r0 none none none none cat).category = none) ∧
      (∀ s, cat = some s → s ≠ "" →
        (apply_update r0 none none none none cat).category = some (pyStrip s))) := by
  have hcond : ¬(nm = "" ∨ pyStrip nm = "") := by
    rintro (rfl | h2)
    · exact hname rfl
    · exact hname h2
  refine ⟨⟨?_, ?_, ?_⟩, ⟨?_, ?_, ?_, ?_⟩⟩
  · obtain ⟨ho, _, _, _⟩ := mgr_save_ok { m with
      recipes := m.recipes ++
        [⟨freshId, pyStrip nm, ings, steps, fav, stripOrNone cat⟩] } h1 h2
    cases hs : mgr_save { m with
        recipes := m.recipes ++
          [⟨freshId, pyStrip nm, ings, steps, fav, stripOrNone cat⟩] } with
    | mk res m2 =>
      rw [hs] at ho
      cases res with
      | ok u =>
        cases u
        simp [add_recipe, hcond, hs]
      | error e => simp at ho
  · cases cat with
    | none => simp [stripOrNone]
    | some s =>
      by_cases hse : s = "" <;> simp [stripOrNone, hse]
  · rintro s rfl hne
    simp [stripOrNone, hne]
  · obtain ⟨ho, _, _, _⟩ := mgr_save_ok { m with
      recipes := updateFirst (fun _ => apply_update r0 none none none none cat)
        m.recipes rid } h1 h2
    cases hs : mgr_save { m with
        recipes := updateFirst (fun _ => apply_update r0 none none none none cat)
          m.recipes rid } with
    | mk res m2 =>
      rw [hs] at ho
      cases res with
      | ok u =>
        cases u
        simp [update_recipe, hr, hs]
      | error e => simp at ho
  · rintro rfl
    simp [apply_update]
  · rintro rfl
    simp [apply_update]
  · rintro s rfl hne
    simp [apply_update, hne]

theorem C4_category_normalization_witness :
    (add_recipe ⟨[⟨"9", "x", [], "", false, none⟩],
        ⟨none, none, false, false, false, false, false⟩⟩
        "id1" "Pasta" [] "" false (some "   ")).1 =
      .ok ⟨"id1", pyStrip "Pasta", [], "", false, stripOrNone (some "   ")⟩ :=
  ((C4_category_normalization
      ⟨[⟨"9", "x", [], "", false, none⟩], ⟨none, none, false, false, false, false, false⟩⟩
      "id1" "Pasta" [] "" false (some "   ") "9" ⟨"9", "x", [], "", false, none⟩
      (by decide) rfl rfl (by decide)).1).1

/-! ### Lemmas about the storage engine -/

theorem parse_recipes_list_map_to_dict (rs : List Recipe) :
    ∀ idx, parse_recipes_list idx (rs.map Recipe.to_dict) = .ok rs := by
  induction rs with
  | nil => intro idx; rfl
  | cons r rest ih =>
    intro idx
    simp [parse_recipes_list, Recipe.from_dict_to_dict, ih (idx + 1), Except.map]

theorem load_parsed_serialized (fuel : Nat) (fs : FS) (rs : List Recipe)
    (hp : fs.primary = some (.parsed (serializeRecipes rs)))
    (hr : fs.readFails = false) :
    load_recipes (fuel + 1) fs = (.ok rs, fs) := by
  simp [load_recipes, hp, hr, serializeRecipes, getRecipesData,
    parse_recipes_list_map_to_dict]

theorem FS_eta_primary (fs : FS) (x : Option FileData) (h : fs.primary = x) :
    { fs with primary := x } = fs := by
  cases fs
  subst h
  rfl

theorem load_recipes_malformed_step (fs : FS) (fuel : Nat)
    (hp : fs.primary = some .malformed) (hr : fs.readFails = false)
    (hb : ∃ b, fs.backup = some b) (hc : fs.restoreCopyFails = false) :
    load_recipes (fuel + 1) fs =
      (match load_recipes fuel { fs with primary := fs.backup } with
       | (.ok rs, fs2) => (.ok rs, fs2)
       | (.error _, fs2) => (.ok [], fs2)) := by
  obtain ⟨b, hb⟩ := hb
  simp [load_recipes, hp, hr, hb, hc]

theorem set_primary_backup_self (fs : FS)
    (hp : fs.primary = some .malformed) (hb : fs.backup = some .malformed) :
    { fs with primary := fs.backup } = fs := by
  rcases fs with ⟨p, b, r1, r2, r3, r4, r5⟩
  dsimp only at hp hb
  subst hp
  subst hb
  rfl

theorem load_malformed_both (fs : FS)
    (hp : fs.primary = some .malformed) (hb : fs.backup = some .malformed)
    (hr : fs.readFails = false) (hc : fs.restoreCopyFails = false) :
    ∀ fuel, load_recipes (fuel + 1) fs = (.ok [], fs) := by
  have hfs : { fs with primary := fs.backup } = fs :=
    set_primary_backup_self fs hp hb
  intro fuel
  induction fuel with
  | zero =>
    rw [load_recipes_malformed_step fs 0 hp hr ⟨_, hb⟩ hc, hfs]
    rfl
  | succ k ih =>
    rw [load_recipes_malformed_step fs (k + 1) hp hr ⟨_, hb⟩ hc, hfs, ih]

/-- C5: with a healthy filesystem, `save_recipes` succeeds and a
subsequent `load_recipes` returns a collection equal (structurally,
field by field, in order) to the one saved. -/
theorem C5_save_load_roundtrip (recipes : List Recipe) (fs : FS) (fuel : Nat)
    (h1 : fs.tempWriteFails = false) (h2 : fs.replaceFails = false)
    (h3 : fs.readFails = false) :
    (save_recipes_fs recipes fs).1 = .ok () ∧
    (load_recipes (fuel + 1) (save_recipes_fs recipes fs).2).1 = .ok recipes := by
  obtain ⟨ho, hp, hrf, _, _⟩ := save_fs_ok recipes fs h1 h2
  refine ⟨ho, ?_⟩
  rw [load_parsed_serialized fuel _ recipes hp (hrf.trans h3)]

theorem C5_save_load_roundtrip_witness :
    (save_recipes_fs [⟨"1", "q", [⟨"Tomato", "2"⟩], "mix", true, some "dinner"⟩]
        ⟨none, none, false, false, false, false, false⟩).1 = .ok () ∧
    (load_recipes 1 (save_recipes_fs [⟨"1", "q", [⟨"Tomato", "2"⟩], "mix", true, some "dinner"⟩]
        ⟨none, none, false, false, false, false, false⟩).2).1 =
      .ok [⟨"1", "q", [⟨"Tomato", "2"⟩], "mix", true, some "dinner"⟩] :=
  C5_save_load_roundtrip [⟨"1", "q", [⟨"Tomato", "2"⟩], "mix", true, some "dinner"⟩]
    ⟨none, none, false, false, false, false, false⟩ 0 rfl rfl rfl

/-- C2: when the primary file fails JSON parsing (and is readable),
`load_recipes` never raises; with no backup, or a restore copy that
itself fails, it returns the empty collection with the filesystem
untouched; with a backup holding a serialized collection it copies the
backup over the primary file and the one retried load returns exactly
the backup's recipes; with a backup that is itself malformed it
returns the empty collection. -/
theorem C2_corrupted_primary_recovery (fs : FS) (fuel : Nat) (rs : List Recipe)
    (hp : fs.primary = some .malformed) (hr : fs.readFails = false) :
    (∃ out, (load_recipes (fuel + 1 + 1) fs).1 = .ok out) ∧
    (fs.backup = none → load_recipes (fuel + 1 + 1) fs = (.ok [], fs)) ∧
    (∀ b, fs.backup = some b → fs.restoreCopyFails = true →
      load_recipes (fuel + 1 + 1) fs = (.ok [], fs)) ∧
    (fs.backup = some (.parsed (serializeRecipes rs)) → fs.restoreCopyFails = false →
      load_recipes (fuel + 1 + 1) fs =
        (.ok rs, { fs with primary := some (.parsed (serializeRecipes rs)) })) ∧
    (fs.backup = some .malformed → fs.restoreCopyFails = false →
      load_recipes (fuel + 1 + 1) fs = (.ok [], fs)) := by
  have hnone : fs.backup = none → load_recipes (fuel + 1 + 1) fs = (.ok [], fs) := by
    intro hb
    simp [load_recipes, hp, hr, hb]
  have hcopyfail : ∀ b, fs.backup = some b → fs.restoreCopyFails = true →
      load_recipes (fuel + 1 + 1) fs = (.ok [], fs) := by
    intro b hb hc
    simp [load_recipes, hp, hr, hb, hc]
  have hgood : fs.backup = some (.parsed (serializeRecipes rs)) →
      fs.restoreCopyFails = false →
      load_recipes (fuel + 1 + 1) fs =
        (.ok rs, { fs with primary := some (.parsed (serializeRecipes rs)) }) := by
    intro hb hc
    rw [load_recipes_malformed_step fs (fuel + 1) hp hr ⟨_, hb⟩ hc, hb]
    rw [load_parsed_serialized fuel
      { primary := some (.parsed (serializeRecipes rs)),
        backup := some (.parsed (serializeRecipes rs)),
        readFails := fs.readFails, restoreCopyFails := fs.restoreCopyFails,
        backupCopyFails := fs.backupCopyFails, tempWriteFails := fs.tempWriteFails,
        replaceFails := fs.replaceFails } rs rfl hr]
  have hbad : fs.backup = some .malformed → fs.restoreCopyFails = false →
      load_recipes (fuel + 1 + 1) fs = (.ok [], fs) := by
    intro hb hc
    exact load_malformed_both fs hp hb hr hc (fuel + 1)
  refine ⟨?_, hnone, hcopyfail, hgood, hbad⟩
  cases hb : fs.backup with
  | none => exact ⟨[], by rw [hnone hb]⟩
  | some b =>
    cases hc : fs.restoreCopyFails with
    | true => exact ⟨[], by rw [hcopyfail b hb hc]⟩
    | false =>
      rw [load_recipes_malformed_step fs (fuel + 1) hp hr ⟨_, hb⟩ hc]
      rcases hload : load_recipes (fuel + 1) { fs with primary := fs.backup } with
        ⟨res, fs2⟩
      cases res with
      | ok out => exact ⟨out, rfl⟩
      | error e => exact ⟨[], rfl⟩

theorem C2_corrupted_primary_recovery_witness :
    load_recipes 2 ⟨some .malformed,
        some (.parsed (serializeRecipes [⟨"1", "q", [], "", false, none⟩])),
        false, false, false, false, false⟩ =
      (.ok [⟨"1", "q", [], "", false, none⟩],
       ⟨some (.parsed (serializeRecipes [⟨"1", "q", [], "", false, none⟩])),
        some (.parsed (serializeRecipes [⟨"1", "q", [], "", false, none⟩])),
        false, false, false, false, false⟩) :=
  (C2_corrupted_primary_recovery ⟨some .malformed,
      some (.parsed (serializeRecipes [⟨"1", "q", [], "", false, none⟩])),
      false, false, false, false, false⟩ 0 [⟨"1", "q", [], "", false, none⟩]
    rfl rfl).2.2.2.1 rfl rfl

/-- C3 counterexample: a filesystem whose primary file exists but whose
read raises: the storage layer does raise a distinct `IOError`, but
`RecipeManager._load_recipes` catches it and falls back to the empty
in-memory collection — the failure does not propagate as fatal at
manager load, contradicting the claim that the manager never falls
back to empty in this case. -/
theorem C3_counterexample :
    (load_recipes 5 ⟨some (.parsed (.arr [])), none, true, false, false, false, false⟩).1 =
      .error .ioError ∧
    (manager_load 5
      ⟨some (.parsed (.arr [])), none, true, false, false, false, false⟩).recipes = [] :=
  ⟨rfl, rfl⟩

/-- C3 amended: when the primary file exists but reading it fails for a
reason other than absence or corruption, `JSONStorage.load_recipes`
re-raises a distinct `IOError`, but the manager's load catches every
exception and falls back to an empty in-memory collection in this case
too — nothing propagates as fatal at manager load. -/
theorem C3_read_failure_swallowed (fs : FS) (fuel : Nat) (c : FileData)
    (hp : fs.primary = some c) (hr : fs.readFails = true) :
    (load_recipes (fuel + 1) fs).1 = .error .ioError ∧
    (manager_load (fuel + 1) fs).recipes = [] := by
  have hload : load_recipes (fuel + 1) fs = (.error .ioError, fs) := by
    cases c <;> simp [load_recipes, hp, hr]
  exact ⟨by rw [hload], by simp [manager_load, hload]⟩

theorem C3_read_failure_swallowed_witness :
    (load_recipes 5 ⟨some .malformed, none, true, false, false, false, false⟩).1 =
      .error .ioError ∧
    (manager_load 5 ⟨some .malformed, none, true, false, false, false, false⟩).recipes =
      [] :=
  C3_read_failure_swallowed ⟨some .malformed, none, true, false, false, false, false⟩
    4 .malformed rfl rfl
